import Mathlib

/-
  Shallow embedding of the admission-control core of the goutility repository:
  the channel-based Semaphore (chanutil/chanutil.go), the max-concurrent HTTP
  handler and HttpService (netutil/httpservice.go), the gated HTTP client
  (netutil, client file), and the gated SQL / Redis pool wrappers
  (dbutil/sql.go and the redis pool file).

  Modelling conventions:
  - A Go channel of struct with capacity `cap` holding `held` queued items is
    the pair `Semaphore.mk cap held`; a send is ready iff `held < cap`, a
    receive is ready iff `0 < held`.
  - Durations are modelled in milliseconds; `DefaultHesitateTime` of
    50 * time.Millisecond becomes the number 50.
  - A `select` over several ready legs is resolved by an environment trace
    (which legs are ready at each instant) together with a tie-break oracle
    `tie` that picks the winner among ready legs; validity of the oracle
    (`TieValid`) models the pseudo-random choice Go makes among ready cases.
  - A Go panic is an exceptional result carried explicitly; `CallResult`
    distinguishes a normal return, a panic (with the state at unwind) and a
    permanently blocked channel operation.
-/

inductive GoError where
  | invalidArgs
  | unknownPanic
  | ctxCanceled
  | poolErr (code : Nat)
deriving DecidableEq, Repr

/-- State of a `chan struct` used as a semaphore: fixed channel capacity
and the current number of queued (held) items. -/
structure Semaphore where
  cap : Nat
  held : Nat
deriving DecidableEq, Repr

/-- Result of running a blocking channel operation in isolation: the
operation either returns normally, panics (carrying the state at the point
of unwinding), or blocks with no peer to unblock it. -/
inductive CallResult (α : Type) where
  | panicked : GoError → α → CallResult α
  | blocked : α → CallResult α
  | ok : α → CallResult α
deriving DecidableEq, Repr

/-- chanutil.NewSemaphore: panics with ErrInvalidArgs when n <= 0,
otherwise returns an empty channel of capacity n. -/
def NewSemaphore (n : Int) : Except GoError Semaphore :=
  if n ≤ 0 then .error .invalidArgs
  else .ok { cap := n.toNat, held := 0 }

/-- The loop `for i := 0; i < n; i++ { s <- e }` run with no concurrent
receiver: each send completes while the channel has room, and the loop
blocks at the first send attempted on a full channel. -/
def sendLoop : Semaphore → Nat → CallResult Semaphore
  | s, 0 => .ok s
  | s, k + 1 =>
      if s.held < s.cap then sendLoop { s with held := s.held + 1 } k
      else .blocked s

/-- The loop `for i := 0; i < n; i++ { <-s }` run with no concurrent
sender: each receive completes while the channel is nonempty, and the loop
blocks at the first receive attempted on an empty channel. -/
def recvLoop : Semaphore → Nat → CallResult Semaphore
  | s, 0 => .ok s
  | s, k + 1 =>
      if 0 < s.held then recvLoop { s with held := s.held - 1 } k
      else .blocked s

/-- chanutil.Semaphore.Acquire: panics with ErrInvalidArgs when n > cap(s),
before any send; otherwise performs n sends. -/
def Semaphore.Acquire (s : Semaphore) (n : Int) : CallResult Semaphore :=
  if n > (s.cap : Int) then .panicked .invalidArgs s
  else sendLoop s n.toNat

/-- chanutil.Semaphore.Release: panics with ErrInvalidArgs when n > cap(s),
before any receive; otherwise performs n receives. -/
def Semaphore.Release (s : Semaphore) (n : Int) : CallResult Semaphore :=
  if n > (s.cap : Int) then .panicked .invalidArgs s
  else recvLoop s n.toNat

/-- The two single-slot gate operations the facades use: one send
(`s <- struct`) to acquire, one receive (`<-s`) to release. -/
inductive GateOp where
  | acquire
  | release
deriving DecidableEq, Repr

/-- One step of the gate: a send completes only when the channel has room
(held < cap), a receive only when it is nonempty (0 < held); an operation
that is not ready does not change the state (the caller stays blocked). -/
def gateStep (s : Semaphore) : GateOp → Option Semaphore
  | .acquire => if s.held < s.cap then some { s with held := s.held + 1 } else none
  | .release => if 0 < s.held then some { s with held := s.held - 1 } else none

/-- States of a capacity-N gate reachable by any interleaving of completed
Acquire and Release operations, starting from the freshly built semaphore. -/
inductive GateReachable (N : Nat) : Semaphore → Prop where
  | init : GateReachable N { cap := N, held := 0 }
  | step : ∀ s op s2, GateReachable N s → gateStep s op = some s2 → GateReachable N s2

theorem gateReachable_cap_eq {N : Nat} {s : Semaphore}
    (h : GateReachable N s) : s.cap = N := by
  induction h with
  | init => rfl
  | step s op s2 _hr hstep ih =>
      cases op <;> simp only [gateStep] at hstep <;> split at hstep
      · injection hstep with h2
        subst h2; exact ih
      · exact absurd hstep (by simp)
      · injection hstep with h2
        subst h2; exact ih
      · exact absurd hstep (by simp)

/-- C1: for every Semaphore gate created with capacity N >= 1, in every
state reachable by any sequence of completed Acquire and Release
operations, the number of successful unreleased acquisitions satisfies
0 <= held <= N, so at no instant are more than N sessions active. -/
theorem gate_held_bounded (N : Nat) (hN : 1 ≤ N) (s : Semaphore)
    (h : GateReachable N s) : 0 ≤ s.held ∧ s.held ≤ N := by
  refine ⟨Nat.zero_le _, ?_⟩
  induction h with
  | init => exact Nat.zero_le _
  | step s op s2 hr hstep ih =>
      have hcap : s.cap = N := gateReachable_cap_eq hr
      cases op <;> simp only [gateStep] at hstep <;> split at hstep
      · injection hstep with h2
        subst h2; simp only []
        omega
      · exact absurd hstep (by simp)
      · injection hstep with h2
        subst h2; simp only []
        omega
      · exact absurd hstep (by simp)

theorem gate_held_bounded_witness :
    0 ≤ (Semaphore.mk 2 1).held ∧ (Semaphore.mk 2 1).held ≤ 2 :=
  gate_held_bounded 2 (by decide) (Semaphore.mk 2 1)
    (GateReachable.step (Semaphore.mk 2 0) GateOp.acquire (Semaphore.mk 2 1)
      GateReachable.init (by decide))

/-- C10: NewSemaphore(n) panics with ErrInvalidArgs for every n <= 0; and
on a semaphore of capacity cap(s), Acquire(m) and Release(m) with
m > cap(s) panic with ErrInvalidArgs before transferring any slot, leaving
held unchanged. -/
theorem semaphore_invalid_args_panic (n : Int) (s : Semaphore) (m : Int)
    (hn : n ≤ 0) (hm : (s.cap : Int) < m) :
    NewSemaphore n = .error .invalidArgs ∧
    s.Acquire m = .panicked .invalidArgs s ∧
    s.Release m = .panicked .invalidArgs s := by
  refine ⟨?_, ?_, ?_⟩
  · simp [NewSemaphore, hn]
  · simp [Semaphore.Acquire, hm]
  · simp [Semaphore.Release, hm]

theorem semaphore_invalid_args_panic_witness :
    NewSemaphore 0 = .error .invalidArgs ∧
    (Semaphore.mk 2 1).Acquire 3 = .panicked .invalidArgs (Semaphore.mk 2 1) ∧
    (Semaphore.mk 2 1).Release 3 = .panicked .invalidArgs (Semaphore.mk 2 1) :=
  semaphore_invalid_args_panic 0 (Semaphore.mk 2 1) 3 (by decide) (by decide)

/-
  netutil/httpservice.go: the max-concurrent middleware.

  `maxConcurrentHandler.acquireConn(ctx)` is a three-way select racing the
  context-done channel, a send on the `concur` semaphore, and a
  `time.After(hesitateTime)` timer.  The environment is a trace giving, at
  each millisecond tick since the select started, whether the context is
  done and how many semaphore slots are held; the timer leg becomes ready
  at tick `hesitateTime`.  Among simultaneously ready legs Go chooses
  pseudo-randomly; a tie-break oracle `tie` models that choice.
-/

/-- The three legs of the select in maxConcurrentHandler.acquireConn. -/
inductive AcquireLeg where
  | ctxDone
  | slotFree
  | timeout
deriving DecidableEq, Repr

/-- Environment observation at one instant: whether the caller's context is
done, and the current occupancy of the `concur` semaphore. -/
structure EnvState where
  ctxDone : Bool
  held : Nat
deriving DecidableEq, Repr

/-- A maxConcurrentHandler after construction: capacity of its `concur`
semaphore and its hesitation timeout in milliseconds (positive, since the
constructor replaces nonpositive values). -/
structure MCHandler where
  concurCap : Nat
  hesitateTime : Nat
deriving DecidableEq, Repr

/-- The result of NewMaxConcurrentHandler: either the original handler
unchanged (no gating) or a gated middleware. -/
inductive CtxHandler where
  | plain
  | limited (h : MCHandler)
deriving DecidableEq, Repr

/-- netutil.DefaultHesitateTime = 50 * time.Millisecond, in milliseconds. -/
def DefaultHesitateTime : Int := 50

/-- netutil.NewMaxConcurrentHandler: returns the wrapped handler unchanged
when maxConcurrent <= 0; otherwise replaces hesitateTime <= 0 by
DefaultHesitateTime and builds the gated middleware. -/
def NewMaxConcurrentHandler (maxConcurrent : Int) (hesitateTime : Int) : CtxHandler :=
  if maxConcurrent ≤ 0 then .plain
  else
    .limited
      { concurCap := maxConcurrent.toNat
        hesitateTime := (if hesitateTime ≤ 0 then DefaultHesitateTime else hesitateTime).toNat }

/-- The legs of the select that are ready at tick t in environment env:
the ctx.Done leg when the context is done, the semaphore send when the
channel has room, the timer when hesitateTime has elapsed. -/
def readySet (h : MCHandler) (env : EnvState) (t : Nat) : List AcquireLeg :=
  (if env.ctxDone then [AcquireLeg.ctxDone] else []) ++
    (if env.held < h.concurCap then [AcquireLeg.slotFree] else []) ++
      (if h.hesitateTime ≤ t then [AcquireLeg.timeout] else [])

/-- First tick at or after t (searching for `fuel` further ticks) at which
some select leg is ready; past the fuel it returns the tick reached. -/
def firstReadyFrom (h : MCHandler) (trace : Nat → EnvState) : Nat → Nat → Nat
  | t, 0 => t
  | t, fuel + 1 =>
      if readySet h (trace t) t = [] then firstReadyFrom h trace (t + 1) fuel
      else t

/-- The instant at which the select in acquireConn resolves: the first tick
with a ready leg.  The timer leg is ready at tick hesitateTime, so
searching that far always suffices. -/
def firstReady (h : MCHandler) (trace : Nat → EnvState) : Nat :=
  firstReadyFrom h trace 0 h.hesitateTime

/-- A valid tie-break oracle picks a winner among the ready legs. -/
def TieValid (tie : List AcquireLeg → AcquireLeg) : Prop :=
  ∀ legs, legs ≠ [] → tie legs ∈ legs

def acquire_OK : Nat := 0
def acquire_CtxDone : Nat := 1
def acquire_Timeout : Nat := 2

/-- maxConcurrentHandler.acquireConn: resolves the three-way select at the
first instant a leg is ready; returns the result code of the source together with the
semaphore occupancy right after the call (a winning send enqueues one
item; the other legs leave the semaphore untouched). -/
def acquireConn (h : MCHandler) (trace : Nat → EnvState)
    (tie : List AcquireLeg → AcquireLeg) : Nat × Nat :=
  let t := firstReady h trace
  let env := trace t
  match tie (readySet h env t) with
  | .ctxDone => (acquire_CtxDone, env.held)
  | .slotFree => (acquire_OK, env.held + 1)
  | .timeout => (acquire_Timeout, env.held)

theorem timeout_mem_readySet (h : MCHandler) (env : EnvState) (t : Nat)
    (ht : h.hesitateTime ≤ t) : AcquireLeg.timeout ∈ readySet h env t := by
  simp [readySet, ht]

theorem readySet_ne_nil_of_timeout (h : MCHandler) (env : EnvState) (t : Nat)
    (ht : h.hesitateTime ≤ t) : readySet h env t ≠ [] :=
  List.ne_nil_of_mem (timeout_mem_readySet h env t ht)

theorem firstReadyFrom_ready (h : MCHandler) (trace : Nat → EnvState) :
    ∀ fuel t, h.hesitateTime ≤ t + fuel →
      readySet h (trace (firstReadyFrom h trace t fuel)) (firstReadyFrom h trace t fuel) ≠ [] := by
  intro fuel
  induction fuel with
  | zero =>
      intro t ht
      simpa [firstReadyFrom] using readySet_ne_nil_of_timeout h (trace t) t (by omega)
  | succ k ih =>
      intro t ht
      by_cases hcase : readySet h (trace t) t = []
      · simpa [firstReadyFrom, hcase] using ih (t + 1) (by omega)
      · simpa [firstReadyFrom, hcase] using hcase

theorem firstReadyFrom_min (h : MCHandler) (trace : Nat → EnvState) :
    ∀ fuel t u, t ≤ u → u < firstReadyFrom h trace t fuel →
      readySet h (trace u) u = [] := by
  intro fuel
  induction fuel with
  | zero =>
      intro t u htu hu
      simp only [firstReadyFrom] at hu
      omega
  | succ k ih =>
      intro t u htu hu
      by_cases hcase : readySet h (trace t) t = []
      · simp only [firstReadyFrom, hcase, if_true] at hu
        rcases Nat.eq_or_lt_of_le htu with rfl | hlt
        · exact hcase
        · exact ih (t + 1) u hlt hu
      · simp only [firstReadyFrom, hcase, if_false] at hu
        omega

theorem firstReady_ready (h : MCHandler) (trace : Nat → EnvState) :
    readySet h (trace (firstReady h trace)) (firstReady h trace) ≠ [] :=
  firstReadyFrom_ready h trace h.hesitateTime 0 (by omega)

theorem firstReady_min (h : MCHandler) (trace : Nat → EnvState) (u : Nat)
    (hu : u < firstReady h trace) : readySet h (trace u) u = [] :=
  firstReadyFrom_min h trace h.hesitateTime 0 u (Nat.zero_le u) hu

theorem mem_readySet_ctxDone (h : MCHandler) (env : EnvState) (t : Nat)
    (hm : AcquireLeg.ctxDone ∈ readySet h env t) : env.ctxDone = true := by
  by_cases hc : env.ctxDone
  · exact hc
  · simp [readySet, hc] at hm

theorem mem_readySet_slotFree (h : MCHandler) (env : EnvState) (t : Nat)
    (hm : AcquireLeg.slotFree ∈ readySet h env t) : env.held < h.concurCap := by
  by_cases hc : env.held < h.concurCap
  · exact hc
  · simp [readySet, hc] at hm

theorem mem_readySet_timeout (h : MCHandler) (env : EnvState) (t : Nat)
    (hm : AcquireLeg.timeout ∈ readySet h env t) : h.hesitateTime ≤ t := by
  by_cases hc : h.hesitateTime ≤ t
  · exact hc
  · simp [readySet, hc] at hm

/-- Canonical valid tie-break: take the first ready leg. -/
def tieHead : List AcquireLeg → AcquireLeg := fun legs => legs.headD AcquireLeg.ctxDone

/-- Canonical valid tie-break: take the last ready leg. -/
def tieLast : List AcquireLeg → AcquireLeg := fun legs => legs.getLastD AcquireLeg.ctxDone

theorem tieHead_valid : TieValid tieHead := by
  intro legs hne
  cases legs with
  | nil => exact absurd rfl hne
  | cons a l => simp [tieHead]

theorem tieLast_valid : TieValid tieLast := by
  intro legs hne
  cases legs with
  | nil => exact absurd rfl hne
  | cons a l =>
      simp only [tieLast, List.getLastD_cons]
      exact List.getLastD_mem_cons l a

/-- C2: for a gated handler, every acquireConn call resolves by a
first-wins race (no leg is ready strictly before the resolution instant)
to exactly one of the three result codes; the OK outcome occurs only when
a slot was available and enqueues exactly one item, and either refusal
leaves the semaphore occupancy unchanged and occurs only when its leg
(context done, or elapsed hesitation timeout) was indeed ready. -/
theorem acquireConn_race_spec (h : MCHandler) (trace : Nat → EnvState)
    (tie : List AcquireLeg → AcquireLeg) (htie : TieValid tie) :
    (∀ u, u < firstReady h trace → readySet h (trace u) u = []) ∧
    ((acquireConn h trace tie).1 = acquire_OK ∨
      (acquireConn h trace tie).1 = acquire_CtxDone ∨
      (acquireConn h trace tie).1 = acquire_Timeout) ∧
    ((acquireConn h trace tie).1 = acquire_OK →
      (acquireConn h trace tie).2 = (trace (firstReady h trace)).held + 1 ∧
        (trace (firstReady h trace)).held < h.concurCap) ∧
    ((acquireConn h trace tie).1 = acquire_CtxDone →
      (acquireConn h trace tie).2 = (trace (firstReady h trace)).held ∧
        (trace (firstReady h trace)).ctxDone = true) ∧
    ((acquireConn h trace tie).1 = acquire_Timeout →
      (acquireConn h trace tie).2 = (trace (firstReady h trace)).held ∧
        h.hesitateTime ≤ firstReady h trace) := by
  have hw : tie (readySet h (trace (firstReady h trace)) (firstReady h trace)) ∈
      readySet h (trace (firstReady h trace)) (firstReady h trace) :=
    htie _ (firstReady_ready h trace)
  refine ⟨fun u hu => firstReady_min h trace u hu, ?_⟩
  cases hq : tie (readySet h (trace (firstReady h trace)) (firstReady h trace)) with
  | ctxDone =>
      have hctx := mem_readySet_ctxDone h _ _ (hq ▸ hw)
      simp [acquireConn, hq, acquire_OK, acquire_CtxDone, acquire_Timeout, hctx]
  | slotFree =>
      have hslot := mem_readySet_slotFree h _ _ (hq ▸ hw)
      simp [acquireConn, hq, acquire_OK, acquire_CtxDone, acquire_Timeout, hslot]
  | timeout =>
      have htmo := mem_readySet_timeout h _ _ (hq ▸ hw)
      simp [acquireConn, hq, acquire_OK, acquire_CtxDone, acquire_Timeout, htmo]

theorem acquireConn_race_spec_witness :
    (∀ u, u < firstReady (MCHandler.mk 1 50) (fun _ => EnvState.mk true 0) →
      readySet (MCHandler.mk 1 50) ((fun (_ : Nat) => EnvState.mk true 0) u) u = []) ∧
    ((acquireConn (MCHandler.mk 1 50) (fun _ => EnvState.mk true 0) tieHead).1 = acquire_OK ∨
      (acquireConn (MCHandler.mk 1 50) (fun _ => EnvState.mk true 0) tieHead).1 = acquire_CtxDone ∨
      (acquireConn (MCHandler.mk 1 50) (fun _ => EnvState.mk true 0) tieHead).1 = acquire_Timeout) ∧
    ((acquireConn (MCHandler.mk 1 50) (fun _ => EnvState.mk true 0) tieHead).1 = acquire_OK →
      (acquireConn (MCHandler.mk 1 50) (fun _ => EnvState.mk true 0) tieHead).2 =
          ((fun (_ : Nat) => EnvState.mk true 0) (firstReady (MCHandler.mk 1 50) (fun _ => EnvState.mk true 0))).held + 1 ∧
        ((fun (_ : Nat) => EnvState.mk true 0) (firstReady (MCHandler.mk 1 50) (fun _ => EnvState.mk true 0))).held < (MCHandler.mk 1 50).concurCap) ∧
    ((acquireConn (MCHandler.mk 1 50) (fun _ => EnvState.mk true 0) tieHead).1 = acquire_CtxDone →
      (acquireConn (MCHandler.mk 1 50) (fun _ => EnvState.mk true 0) tieHead).2 =
          ((fun (_ : Nat) => EnvState.mk true 0) (firstReady (MCHandler.mk 1 50) (fun _ => EnvState.mk true 0))).held ∧
        ((fun (_ : Nat) => EnvState.mk true 0) (firstReady (MCHandler.mk 1 50) (fun _ => EnvState.mk true 0))).ctxDone = true) ∧
    ((acquireConn (MCHandler.mk 1 50) (fun _ => EnvState.mk true 0) tieHead).1 = acquire_Timeout →
      (acquireConn (MCHandler.mk 1 50) (fun _ => EnvState.mk true 0) tieHead).2 =
          ((fun (_ : Nat) => EnvState.mk true 0) (firstReady (MCHandler.mk 1 50) (fun _ => EnvState.mk true 0))).held ∧
        (MCHandler.mk 1 50).hesitateTime ≤ firstReady (MCHandler.mk 1 50) (fun _ => EnvState.mk true 0)) :=
  acquireConn_race_spec (MCHandler.mk 1 50) (fun _ => EnvState.mk true 0) tieHead tieHead_valid

theorem firstReadyFrom_of_quiet (h : MCHandler) (trace : Nat → EnvState)
    (hquiet : ∀ u, u < h.hesitateTime → readySet h (trace u) u = []) :
    ∀ fuel t, t + fuel = h.hesitateTime → firstReadyFrom h trace t fuel = h.hesitateTime := by
  intro fuel
  induction fuel with
  | zero =>
      intro t ht
      simpa [firstReadyFrom] using ht
  | succ k ih =>
      intro t ht
      have hlt : t < h.hesitateTime := by omega
      simp only [firstReadyFrom, hquiet t hlt, if_true]
      exact ih (t + 1) (by omega)

theorem firstReady_of_quiet (h : MCHandler) (trace : Nat → EnvState)
    (hquiet : ∀ u, u < h.hesitateTime → readySet h (trace u) u = []) :
    firstReady h trace = h.hesitateTime :=
  firstReadyFrom_of_quiet h trace hquiet h.hesitateTime 0 (by omega)

/-- C3 counterexample: a handler facade configured with hesitationTimeout
= 0 does not wait indefinitely.  NewMaxConcurrentHandler(oh, 1, 0, n)
builds a gated handler whose hesitation timeout is DefaultHesitateTime
(50ms), and on a run where the single slot stays held and the context
never fires, its acquireConn resolves Refused-Timeout, refuting the claim
that such a facade never yields the timeout outcome. -/
theorem hesitate_zero_timeout_cex :
    NewMaxConcurrentHandler 1 0 = CtxHandler.limited (MCHandler.mk 1 50) ∧
    acquireConn (MCHandler.mk 1 50) (fun _ => EnvState.mk false 1) tieHead =
      (acquire_Timeout, 1) ∧
    TieValid tieHead :=
  ⟨by decide, by decide, tieHead_valid⟩

/-- C3 amended: NewMaxConcurrentHandler replaces hesitationTimeout = 0 (or
any nonpositive value) by DefaultHesitateTime = 50ms, so the constructed
facade keeps a timeout race leg; on any run in which the context never
fires and the gate stays full, Acquire resolves Refused-Timeout when the
50ms hesitation elapses.  (No configuration of this handler waits
indefinitely; only a facade built with capacity <= 0 bypasses the gate.) -/
theorem hesitate_zero_uses_default (mc : Int) (hmc : 1 ≤ mc)
    (trace : Nat → EnvState) (tie : List AcquireLeg → AcquireLeg)
    (htie : TieValid tie)
    (hquiet : ∀ t, (trace t).ctxDone = false ∧ mc.toNat ≤ (trace t).held) :
    NewMaxConcurrentHandler mc 0 =
      CtxHandler.limited (MCHandler.mk mc.toNat DefaultHesitateTime.toNat) ∧
    acquireConn (MCHandler.mk mc.toNat DefaultHesitateTime.toNat) trace tie =
      (acquire_Timeout, (trace DefaultHesitateTime.toNat).held) := by
  constructor
  · have hpos : ¬ mc ≤ 0 := by omega
    simp [NewMaxConcurrentHandler, hpos]
  · have hready : ∀ t, readySet (MCHandler.mk mc.toNat DefaultHesitateTime.toNat)
        (trace t) t = (if DefaultHesitateTime.toNat ≤ t then [AcquireLeg.timeout] else []) := by
      intro t
      have h1 := (hquiet t).1
      have h2 : ¬ (trace t).held < mc.toNat := by
        have := (hquiet t).2
        omega
      simp [readySet, h1, h2]
    have hdt : DefaultHesitateTime.toNat = 50 := rfl
    have hfr : firstReady (MCHandler.mk mc.toNat DefaultHesitateTime.toNat) trace =
        DefaultHesitateTime.toNat := by
      apply firstReady_of_quiet
      intro u hu
      rw [hready u]
      simp only [MCHandler.hesitateTime] at hu
      simp only [hdt] at hu ⊢
      rw [if_neg (by omega)]
    have hrs : readySet (MCHandler.mk mc.toNat DefaultHesitateTime.toNat)
        (trace DefaultHesitateTime.toNat) DefaultHesitateTime.toNat = [AcquireLeg.timeout] := by
      rw [hready]
      simp
    have hwin : tie [AcquireLeg.timeout] = AcquireLeg.timeout := by
      have := htie [AcquireLeg.timeout] (by simp)
      simpa using this
    simp [acquireConn, hfr, hrs, hwin]

theorem hesitate_zero_uses_default_witness :
    NewMaxConcurrentHandler 1 0 =
      CtxHandler.limited (MCHandler.mk (Int.toNat 1) DefaultHesitateTime.toNat) ∧
    acquireConn (MCHandler.mk (Int.toNat 1) DefaultHesitateTime.toNat)
        (fun _ => EnvState.mk false 1) tieHead =
      (acquire_Timeout, ((fun (_ : Nat) => EnvState.mk false 1) DefaultHesitateTime.toNat).held) :=
  hesitate_zero_uses_default 1 (by decide) (fun _ => EnvState.mk false 1) tieHead
    tieHead_valid (fun t => ⟨rfl, Nat.le_refl 1⟩)

/-- Visible outcome of one handler invocation: the wrapped handler ran
(admitted), or one of the two notifier callbacks fired. -/
inductive ServeOutcome where
  | served
  | unavailableDone
  | busyLimit
deriving DecidableEq, Repr

/-- maxConcurrentHandler.ContextServeHTTP up to the point where the
request is refused (OnContextDone for ret = acquire_CtxDone,
OnConcurrentLimit for ret = acquire_Timeout) or the wrapped handler is
invoked; the second component is the semaphore occupancy right after
acquireConn returned. -/
def MCHandler.ContextServeHTTP (h : MCHandler) (trace : Nat → EnvState)
    (tie : List AcquireLeg → AcquireLeg) : ServeOutcome × Nat :=
  let r := acquireConn h trace tie
  if r.1 = acquire_CtxDone then (.unavailableDone, r.2)
  else if r.1 = acquire_Timeout then (.busyLimit, r.2)
  else (.served, r.2)

/-- The ServeHTTP of the alternate HttpService revision in the repository
(src/unnamed/part_001): it pre-checks quitCtx.Done() in a select and
refuses with StatusServiceUnavailable before touching the request
WaitGroup or any gate; otherwise it serves the request. -/
def serveHTTPQuitCheck (quitCtxDone : Bool) : ServeOutcome :=
  if quitCtxDone then .unavailableDone else .served

theorem firstReady_eq_zero (h : MCHandler) (trace : Nat → EnvState)
    (hr : readySet h (trace 0) 0 ≠ []) : firstReady h trace = 0 := by
  unfold firstReady
  cases hh : h.hesitateTime with
  | zero => rfl
  | succ k => simp [firstReadyFrom, hr]

/-- C7 counterexample: after Stop has fired quitCtx, a ServeHTTP call of
the current facade (src/netutil/httpservice.go) can still be Admitted: the
handler does consult the Gate, and with one slot free both the
context-done leg and the semaphore send are ready at tick 0, so the
pseudo-random select may pick the send and serve the request, refuting
"always Unavailable, never Admitted, without consulting the Gate". -/
theorem stop_then_admitted_cex :
    MCHandler.ContextServeHTTP (MCHandler.mk 1 50) (fun _ => EnvState.mk true 0) tieLast =
      (ServeOutcome.served, 1) ∧
    readySet (MCHandler.mk 1 50) (EnvState.mk true 0) 0 =
      [AcquireLeg.ctxDone, AcquireLeg.slotFree] ∧
    TieValid tieLast :=
  ⟨by decide, by decide, tieLast_valid⟩

/-- C7 amended: after Stop the facade of src/netutil/httpservice.go passes
the fired quitCtx into the gate's three-way race, which resolves
immediately at tick 0; since the timeout leg cannot be ready there, the
call never yields Busy — it yields Unavailable, or may be Admitted by the
select tie-break when a slot is free, and with a full gate it always
yields Unavailable.  Only the alternate revision (src/unnamed/part_001)
pre-checks the quit signal and always refuses as Unavailable without
consulting any gate. -/
theorem stop_then_serve_no_busy (h : MCHandler) (trace : Nat → EnvState)
    (tie : List AcquireLeg → AcquireLeg) (htie : TieValid tie)
    (hht : 1 ≤ h.hesitateTime) (hstop : (trace 0).ctxDone = true) :
    firstReady h trace = 0 ∧
    (MCHandler.ContextServeHTTP h trace tie).1 ≠ ServeOutcome.busyLimit ∧
    (h.concurCap ≤ (trace 0).held →
      (MCHandler.ContextServeHTTP h trace tie).1 = ServeOutcome.unavailableDone) ∧
    serveHTTPQuitCheck true = ServeOutcome.unavailableDone := by
  have hmem : AcquireLeg.ctxDone ∈ readySet h (trace 0) 0 := by
    simp [readySet, hstop]
  have hfr : firstReady h trace = 0 :=
    firstReady_eq_zero h trace (List.ne_nil_of_mem hmem)
  have hw : tie (readySet h (trace 0) 0) ∈ readySet h (trace 0) 0 :=
    htie _ (List.ne_nil_of_mem hmem)
  refine ⟨hfr, ?_, ?_, rfl⟩
  · cases hq : tie (readySet h (trace 0) 0) with
    | ctxDone =>
        simp [MCHandler.ContextServeHTTP, acquireConn, hfr, hq,
          acquire_OK, acquire_CtxDone, acquire_Timeout]
    | slotFree =>
        simp [MCHandler.ContextServeHTTP, acquireConn, hfr, hq,
          acquire_OK, acquire_CtxDone, acquire_Timeout]
    | timeout =>
        have := mem_readySet_timeout h (trace 0) 0 (hq ▸ hw)
        omega
  · intro hfull
    cases hq : tie (readySet h (trace 0) 0) with
    | ctxDone =>
        simp [MCHandler.ContextServeHTTP, acquireConn, hfr, hq,
          acquire_OK, acquire_CtxDone, acquire_Timeout]
    | slotFree =>
        have := mem_readySet_slotFree h (trace 0) 0 (hq ▸ hw)
        omega
    | timeout =>
        have := mem_readySet_timeout h (trace 0) 0 (hq ▸ hw)
        omega

theorem stop_then_serve_no_busy_witness :
    firstReady (MCHandler.mk 1 50) (fun _ => EnvState.mk true 1) = 0 ∧
    (MCHandler.ContextServeHTTP (MCHandler.mk 1 50) (fun _ => EnvState.mk true 1) tieHead).1 ≠
      ServeOutcome.busyLimit ∧
    ((MCHandler.mk 1 50).concurCap ≤ ((fun (_ : Nat) => EnvState.mk true 1) 0).held →
      (MCHandler.ContextServeHTTP (MCHandler.mk 1 50) (fun _ => EnvState.mk true 1) tieHead).1 =
        ServeOutcome.unavailableDone) ∧
    serveHTTPQuitCheck true = ServeOutcome.unavailableDone :=
  stop_then_serve_no_busy (MCHandler.mk 1 50) (fun _ => EnvState.mk true 1) tieHead
    tieHead_valid (by decide) rfl

/-
  dbutil/sql.go (SQLDB, SQLTx), the redis pool file (RedisPool, proxyConn)
  and the netutil HTTP client file (HttpClient): each owns an optional
  `concur` semaphore — nil when maxConcurrent <= 0 — and acquireConn is a
  two-way select between ctx.Done() and a semaphore send (no timer leg);
  releaseConn is a plain receive.  The semaphore occupancy `held` is
  threaded explicitly; the winning leg of the select is the parameter
  `ev`; a receive on an empty channel blocks, modelled as `none`.
-/

/-- The two legs of the select in the pool wrappers' acquireConn. -/
inductive PoolLeg where
  | ctxDone
  | slotFree
deriving DecidableEq, Repr

/-- dbutil.SQLDB: only the gate matters here; `concurCap = none` models
the nil `concur` channel. -/
structure SQLDB where
  concurCap : Option Nat
deriving DecidableEq, Repr

/-- dbutil.NewSQLDB: the semaphore is created only when maxConcurrent > 0. -/
def NewSQLDB (maxConcurrent : Int) : SQLDB :=
  { concurCap := if maxConcurrent > 0 then some maxConcurrent.toNat else none }

/-- SQLDB.acquireConn: with a nil semaphore it returns nil immediately
(before the select); otherwise the select returns ctx.Err() when the
context leg wins and enqueues one item when the send wins. -/
def SQLDB.acquireConn (d : SQLDB) (held : Nat) (ev : PoolLeg) : Except GoError Nat :=
  match d.concurCap with
  | none => .ok held
  | some _ =>
      match ev with
      | .ctxDone => .error .ctxCanceled
      | .slotFree => .ok (held + 1)

/-- SQLDB.releaseConn: no-op with a nil semaphore; otherwise one receive,
which blocks (none) on an empty channel. -/
def SQLDB.releaseConn (d : SQLDB) (held : Nat) : Option Nat :=
  match d.concurCap with
  | none => some held
  | some _ => if 0 < held then some (held - 1) else none

/-- dbutil.RedisPool: gate of the contexted redis pool. -/
structure RedisPool where
  concurCap : Option Nat
deriving DecidableEq, Repr

/-- dbutil.NewRedisPool: the semaphore is created only when
maxConcurrent > 0. -/
def NewRedisPool (maxConcurrent : Int) : RedisPool :=
  { concurCap := if maxConcurrent > 0 then some maxConcurrent.toNat else none }

/-- RedisPool.acquireConn, same shape as SQLDB.acquireConn. -/
def RedisPool.acquireConn (p : RedisPool) (held : Nat) (ev : PoolLeg) : Except GoError Nat :=
  match p.concurCap with
  | none => .ok held
  | some _ =>
      match ev with
      | .ctxDone => .error .ctxCanceled
      | .slotFree => .ok (held + 1)

/-- RedisPool.releaseConn, same shape as SQLDB.releaseConn. -/
def RedisPool.releaseConn (p : RedisPool) (held : Nat) : Option Nat :=
  match p.concurCap with
  | none => some held
  | some _ => if 0 < held then some (held - 1) else none

/-- netutil.HttpClient: gate of the contexted outbound HTTP client. -/
structure HttpClient where
  concurCap : Option Nat
deriving DecidableEq, Repr

/-- netutil.NewHttpClient (gate part): the semaphore is created only when
maxConcurrent > 0. -/
def NewHttpClient (maxConcurrent : Int) : HttpClient :=
  { concurCap := if maxConcurrent > 0 then some maxConcurrent.toNat else none }

/-- HttpClient.acquireConn, same shape as SQLDB.acquireConn. -/
def HttpClient.acquireConn (c : HttpClient) (held : Nat) (ev : PoolLeg) : Except GoError Nat :=
  match c.concurCap with
  | none => .ok held
  | some _ =>
      match ev with
      | .ctxDone => .error .ctxCanceled
      | .slotFree => .ok (held + 1)

/-- HttpClient.releaseConn, same shape as SQLDB.releaseConn. -/
def HttpClient.releaseConn (c : HttpClient) (held : Nat) : Option Nat :=
  match c.concurCap with
  | none => some held
  | some _ => if 0 < held then some (held - 1) else none

/-- The borrowed redigo connection as RedisPool.Get sees it: only its
Err() status is relevant. -/
structure RConn where
  connErr : Option GoError
deriving DecidableEq, Repr

/-- RedisPool.Get: success starts false; acquireConn; deferred release
runs when success is still false; p.p.Get() yields a connection whose
Err() is c.connErr — non-nil makes Get close the raw connection, run the
deferred release and return that error unchanged; otherwise success
becomes true and the proxy connection is returned. -/
def RedisPool.Get (p : RedisPool) (held : Nat) (ev : PoolLeg) (c : RConn) :
    Option (Except GoError Unit × Nat) :=
  match p.acquireConn held ev with
  | .error e => some (.error e, held)
  | .ok held1 =>
      match c.connErr with
      | some e => (p.releaseConn held1).map fun h2 => (.error e, h2)
      | none => some (.ok (), held1)

/-- SQLDB.Begin: success starts false; acquireConn; deferred release runs
when success is still false; d.db.Begin() terminates with `beginRes` —
an error makes Begin run the deferred release and return that error
unchanged; otherwise success becomes true and the wrapped Tx is returned. -/
def SQLDB.Begin (d : SQLDB) (held : Nat) (ev : PoolLeg)
    (beginRes : Except GoError Unit) : Option (Except GoError Unit × Nat) :=
  match d.acquireConn held ev with
  | .error e => some (.error e, held)
  | .ok held1 =>
      match beginRes with
      | .error e => (d.releaseConn held1).map fun h2 => (.error e, h2)
      | .ok _ => some (.ok (), held1)

/-- proxyConn.Close: c.p.releaseConn() then the raw connection's Close;
only the gate effect is modelled. -/
def proxyConnClose (p : RedisPool) (held : Nat) : Option Nat :=
  p.releaseConn held

/-- SQLTx.Commit: deferred tx.db.releaseConn() around tx.Tx.Commit();
only the gate effect is modelled. -/
def SQLTx.Commit (d : SQLDB) (held : Nat) : Option Nat :=
  d.releaseConn held

/-- SQLTx.Rollback: deferred tx.db.releaseConn() around tx.Tx.Rollback();
only the gate effect is modelled. -/
def SQLTx.Rollback (d : SQLDB) (held : Nat) : Option Nat :=
  d.releaseConn held

/-- C4: with capacity 0 the gate is absent everywhere: the handler
constructor returns the wrapped handler unchanged (every request is
admitted immediately, no refusal outcome exists), and in the outbound
HTTP client, the SQL wrapper and the cache wrapper acquireConn returns
nil immediately for every context state and every occupancy — never
Refused-Cancelled, never Refused-Timeout (those wrappers have no timeout
leg at all) — and releaseConn is a no-op. -/
theorem capacity_zero_unbounded :
    (∀ ht : Int, NewMaxConcurrentHandler 0 ht = CtxHandler.plain) ∧
    (NewSQLDB 0).concurCap = none ∧
    (NewRedisPool 0).concurCap = none ∧
    (NewHttpClient 0).concurCap = none ∧
    (∀ held ev, (NewSQLDB 0).acquireConn held ev = .ok held) ∧
    (∀ held, (NewSQLDB 0).releaseConn held = some held) ∧
    (∀ held ev, (NewRedisPool 0).acquireConn held ev = .ok held) ∧
    (∀ held, (NewRedisPool 0).releaseConn held = some held) ∧
    (∀ held ev, (NewHttpClient 0).acquireConn held ev = .ok held) ∧
    (∀ held, (NewHttpClient 0).releaseConn held = some held) := by
  refine ⟨fun ht => ?_, rfl, rfl, rfl, fun held ev => rfl, fun held => rfl,
    fun held ev => rfl, fun held => rfl, fun held ev => rfl, fun held => rfl⟩
  simp [NewMaxConcurrentHandler]

/-- C5: when the gate admits the caller (the semaphore send won the
select) but the underlying borrow fails — RedisPool.Get borrows a
connection whose Err is non-nil, or the Begin underlying SQLDB.Begin
returns an error — the deferred not-success release returns the slot
before the failure is returned and the pool's error is propagated
unchanged: held ends at its pre-call value and no slot leaks. -/
theorem borrow_failure_releases_slot (p : RedisPool) (d : SQLDB) (held : Nat) (e : GoError) :
    p.Get held PoolLeg.slotFree (RConn.mk (some e)) = some (.error e, held) ∧
    d.Begin held PoolLeg.slotFree (.error e) = some (.error e, held) := by
  constructor
  · cases hp : p.concurCap <;>
      simp [RedisPool.Get, RedisPool.acquireConn, RedisPool.releaseConn, hp]
  · cases hd : d.concurCap <;>
      simp [SQLDB.Begin, SQLDB.acquireConn, SQLDB.releaseConn, hd]

/-- C6 counterexample: Close is not idempotent.  On a gated pool of
capacity 2 with two active sessions (held = 2), one proxyConn.Close
leaves held = 1, but calling Close twice leaves held = 0 — the slot is
released twice, stealing the other session's slot; likewise Commit
followed by Rollback on the same SQLTx releases two slots.  This refutes
"calling Close twice has the same observable effect as calling it once". -/
theorem double_close_double_release_cex :
    proxyConnClose (RedisPool.mk (some 2)) 2 = some 1 ∧
    Option.bind (proxyConnClose (RedisPool.mk (some 2)) 2)
        (proxyConnClose (RedisPool.mk (some 2))) = some 0 ∧
    SQLTx.Commit (SQLDB.mk (some 2)) 2 = some 1 ∧
    Option.bind (SQLTx.Commit (SQLDB.mk (some 2)) 2)
        (SQLTx.Rollback (SQLDB.mk (some 2))) = some 0 ∧
    some 0 ≠ some (1 : Nat) := by
  refine ⟨by decide, by decide, by decide, by decide, by decide⟩

/-- C6 amended: on a gated pool, proxyConn.Close, SQLTx.Commit and
SQLTx.Rollback each release one gate slot unconditionally on every call:
a second call on the same session decrements held again (taking a slot
held by another active session), and when held is already 0 the
underlying receive blocks — held stays nonnegative only because the
receive blocks rather than going negative.  Callers must pair each
admission with exactly one such call. -/
theorem close_releases_every_call (p : RedisPool) (d : SQLDB) (held : Nat)
    (cp cd : Nat) (hp : p.concurCap = some cp) (hd : d.concurCap = some cd) :
    (0 < held →
      proxyConnClose p held = some (held - 1) ∧
      SQLTx.Commit d held = some (held - 1) ∧
      SQLTx.Rollback d held = some (held - 1)) ∧
    proxyConnClose p 0 = none ∧
    SQLTx.Commit d 0 = none ∧
    SQLTx.Rollback d 0 = none := by
  constructor
  · intro hpos
    refine ⟨?_, ?_, ?_⟩ <;>
      simp [proxyConnClose, SQLTx.Commit, SQLTx.Rollback,
        RedisPool.releaseConn, SQLDB.releaseConn, hp, hd, hpos]
  · refine ⟨?_, ?_, ?_⟩ <;>
      simp [proxyConnClose, SQLTx.Commit, SQLTx.Rollback,
        RedisPool.releaseConn, SQLDB.releaseConn, hp, hd]

theorem close_releases_every_call_witness :
    (0 < 1 →
      proxyConnClose (RedisPool.mk (some 2)) 1 = some (1 - 1) ∧
      SQLTx.Commit (SQLDB.mk (some 2)) 1 = some (1 - 1) ∧
      SQLTx.Rollback (SQLDB.mk (some 2)) 1 = some (1 - 1)) ∧
    proxyConnClose (RedisPool.mk (some 2)) 0 = none ∧
    SQLTx.Commit (SQLDB.mk (some 2)) 0 = none ∧
    SQLTx.Rollback (SQLDB.mk (some 2)) 0 = none :=
  close_releases_every_call (RedisPool.mk (some 2)) (SQLDB.mk (some 2)) 1 2 2 rfl rfl

/-
  HttpService.ServeHTTP of src/netutil/httpservice.go:
      s.reqWG.Add(1); defer s.reqWG.Done(); s.h.ContextServeHTTP(s.quitCtx, w, r)
  The drain waiter is WaitRequests = s.reqWG.Wait().  One call is modelled
  as the ordered list of its WaitGroup and admission micro-events, from
  which the running WaitGroup count is recovered.
-/

/-- Micro-events of one ServeHTTP call: the entry reqWG.Add(1), the
admission resolution inside the gated handler, the unit of work when
admitted, and the deferred reqWG.Done() on return. -/
inductive ServeEvent where
  | wgAdd
  | admission (o : ServeOutcome)
  | workStart
  | workEnd
  | wgDone
deriving DecidableEq, Repr

/-- Event order of one ServeHTTP call that resolved admission to `o`:
Add(1) happens at entry, before the admission attempt; the work runs only
when admitted; Done() runs last via defer. -/
def serveHTTPEvents (o : ServeOutcome) : List ServeEvent :=
  [.wgAdd, .admission o] ++
    (if o = .served then [.workStart, .workEnd] else []) ++ [.wgDone]

/-- Contribution of one event to the reqWG counter. -/
def wgDelta : ServeEvent → Int
  | .wgAdd => 1
  | .wgDone => -1
  | _ => 0

/-- reqWG counter after a list of events, starting from w0. -/
def wgCountAfter (w0 : Int) (evs : List ServeEvent) : Int :=
  w0 + (evs.map wgDelta).sum

/-- One ServeHTTP call composed with the gated handler: its event trace. -/
def serveHTTPCall (h : MCHandler) (trace : Nat → EnvState)
    (tie : List AcquireLeg → AcquireLeg) : List ServeEvent :=
  serveHTTPEvents (h.ContextServeHTTP trace tie).1

/-- C8 counterexample: a request arriving after Stop — quitCtx fired and
the gate full, so it cannot be admitted — is still counted by the drain
waiter: its first event is reqWG.Add(1), performed before the admission
attempt, so the WaitGroup count rises above its entry value during the
refused call.  This refutes "incremented exactly at admission" and "a
request arriving after Stop() is never counted". -/
theorem post_stop_request_counted_cex :
    serveHTTPCall (MCHandler.mk 1 50) (fun _ => EnvState.mk true 1) tieHead =
      [ServeEvent.wgAdd, ServeEvent.admission ServeOutcome.unavailableDone,
        ServeEvent.wgDone] ∧
    wgCountAfter 0 (List.take 1 (serveHTTPCall (MCHandler.mk 1 50)
      (fun _ => EnvState.mk true 1) tieHead)) = 1 ∧
    TieValid tieHead :=
  ⟨by decide, by decide, tieHead_valid⟩

/-- C8 amended: the drain count (reqWG) is incremented at request entry —
before the admission attempt, hence still strictly before the unit of
work starts — and decremented by the deferred Done() at the very end, for
every request, including requests refused after Stop; every call is
balanced, and while the admitted unit of work runs the count stays one
above its entry value, so a drain waiter blocked on zero cannot observe
"drained" while admitted work is in flight.  But the count is not touched
"exactly at admission": a post-Stop request is counted while it is being
refused. -/
theorem wg_counts_every_request (o : ServeOutcome) (w0 : Int) :
    (serveHTTPEvents o).head? = some ServeEvent.wgAdd ∧
    (serveHTTPEvents o).getLast? = some ServeEvent.wgDone ∧
    wgCountAfter w0 (serveHTTPEvents o) = w0 ∧
    (o = ServeOutcome.served →
      serveHTTPEvents o = [ServeEvent.wgAdd, ServeEvent.admission o,
        ServeEvent.workStart, ServeEvent.workEnd, ServeEvent.wgDone] ∧
      wgCountAfter w0 (List.take 3 (serveHTTPEvents o)) = w0 + 1) := by
  cases o <;>
    refine ⟨rfl, rfl, ?_, ?_⟩ <;>
      simp [serveHTTPEvents, wgCountAfter, wgDelta]

theorem wg_counts_every_request_witness :
    (serveHTTPEvents ServeOutcome.served).head? = some ServeEvent.wgAdd ∧
    (serveHTTPEvents ServeOutcome.served).getLast? = some ServeEvent.wgDone ∧
    wgCountAfter 0 (serveHTTPEvents ServeOutcome.served) = 0 ∧
    (ServeOutcome.served = ServeOutcome.served →
      serveHTTPEvents ServeOutcome.served = [ServeEvent.wgAdd,
        ServeEvent.admission ServeOutcome.served, ServeEvent.workStart,
        ServeEvent.workEnd, ServeEvent.wgDone] ∧
      wgCountAfter 0 (List.take 3 (serveHTTPEvents ServeOutcome.served)) = 0 + 1) :=
  wg_counts_every_request ServeOutcome.served 0

/-- A Go panic value: an error value, or any other value. -/
inductive PanicVal where
  | errVal (e : GoError)
  | otherVal
deriving DecidableEq, Repr

/-- Observable result of one full ServeHTTP call with a gated handler
when the admitted unit of work may panic: the visible outcome, the gate
occupancy and WaitGroup count after the call unwinds, and the panic value
if one escaped ServeHTTP. -/
structure ServeRun where
  outcome : ServeOutcome
  heldAfter : Nat
  wgAfter : Int
  escaped : Option PanicVal
deriving DecidableEq, Repr

/-- ServeHTTP with the gated ContextServeHTTP inlined: reqWG.Add(1) and
its deferred Done() bracket the call; on the admitted path the handler
defers releaseConn and invokes the wrapped handler, whose termination is
`work` (none = normal return, some v = panic with value v).  Neither
function recovers, so a panic runs both defers — the slot is released and
the WaitGroup decremented — and then keeps unwinding out of ServeHTTP. -/
def serveHTTPRun (h : MCHandler) (trace : Nat → EnvState)
    (tie : List AcquireLeg → AcquireLeg) (w0 : Int) (work : Option PanicVal) : ServeRun :=
  let r := acquireConn h trace tie
  if r.1 = acquire_CtxDone then
    { outcome := .unavailableDone, heldAfter := r.2, wgAfter := w0, escaped := none }
  else if r.1 = acquire_Timeout then
    { outcome := .busyLimit, heldAfter := r.2, wgAfter := w0, escaped := none }
  else
    { outcome := .served, heldAfter := r.2 - 1, wgAfter := w0, escaped := work }

/-- HttpService.ending: the deferred recover guarding s.srv.Serve on the
service goroutine — not the per-request path.  A recovered error value is
stored as s.err; any other recovered value becomes ErrUnknownPanic; with
no panic the previous error stands. -/
def ending (recovered : Option PanicVal) (errPrev : Option GoError) : Option GoError :=
  match recovered with
  | some (.errVal e) => some e
  | some .otherVal => some .unknownPanic
  | none => errPrev

/-- C9 counterexample: an admitted unit of work panicking with a
non-error value does release the gate slot and decrement the drain count
on unwind, but the panic escapes ServeHTTP unconverted — nothing on the
request path recovers it or produces ErrUnknownPanic (the recover in
HttpService.ending guards only the serve loop) — refuting "caught at the
facade boundary and converted to a typed error rather than escaping". -/
theorem panic_escapes_facade_cex :
    serveHTTPRun (MCHandler.mk 1 50) (fun _ => EnvState.mk false 0) tieHead 0
        (some PanicVal.otherVal) =
      ServeRun.mk ServeOutcome.served 0 0 (some PanicVal.otherVal) ∧
    some PanicVal.otherVal ≠ (none : Option PanicVal) ∧
    TieValid tieHead :=
  ⟨by decide, by decide, tieHead_valid⟩

/-- C9 amended: when the admitted unit of work panics, the deferred
releaseConn and reqWG.Done() still run before propagation — gate
occupancy returns to its value at the admission instant and the WaitGroup
to its entry value — but the panic escapes the facade's request path
uncaught; the conversion of a recovered non-error value to ErrUnknownPanic
(and of an error value to itself) happens only in HttpService.ending, the
recover guarding the serve loop. -/
theorem panic_releases_slot_but_escapes (h : MCHandler) (trace : Nat → EnvState)
    (tie : List AcquireLeg → AcquireLeg) (w0 : Int) (pv : PanicVal)
    (e : GoError) (errPrev : Option GoError) :
    ((serveHTTPRun h trace tie w0 (some pv)).outcome = ServeOutcome.served →
      (serveHTTPRun h trace tie w0 (some pv)).heldAfter =
          (trace (firstReady h trace)).held ∧
      (serveHTTPRun h trace tie w0 (some pv)).wgAfter = w0 ∧
      (serveHTTPRun h trace tie w0 (some pv)).escaped = some pv) ∧
    ending (some (PanicVal.errVal e)) errPrev = some e ∧
    ending (some PanicVal.otherVal) errPrev = some GoError.unknownPanic := by
  refine ⟨?_, rfl, rfl⟩
  cases hq : tie (readySet h (trace (firstReady h trace)) (firstReady h trace)) <;>
    simp [serveHTTPRun, acquireConn, hq, acquire_OK, acquire_CtxDone, acquire_Timeout]

theorem panic_releases_slot_but_escapes_witness :
    ((serveHTTPRun (MCHandler.mk 2 50) (fun _ => EnvState.mk false 1) tieHead 3
        (some (PanicVal.errVal GoError.ctxCanceled))).outcome = ServeOutcome.served →
      (serveHTTPRun (MCHandler.mk 2 50) (fun _ => EnvState.mk false 1) tieHead 3
          (some (PanicVal.errVal GoError.ctxCanceled))).heldAfter =
        ((fun (_ : Nat) => EnvState.mk false 1)
          (firstReady (MCHandler.mk 2 50) (fun _ => EnvState.mk false 1))).held ∧
      (serveHTTPRun (MCHandler.mk 2 50) (fun _ => EnvState.mk false 1) tieHead 3
          (some (PanicVal.errVal GoError.ctxCanceled))).wgAfter = 3 ∧
      (serveHTTPRun (MCHandler.mk 2 50) (fun _ => EnvState.mk false 1) tieHead 3
          (some (PanicVal.errVal GoError.ctxCanceled))).escaped =
        some (PanicVal.errVal GoError.ctxCanceled)) ∧
    ending (some (PanicVal.errVal (GoError.poolErr 7))) none = some (GoError.poolErr 7) ∧
    ending (some PanicVal.otherVal) none = some GoError.unknownPanic :=
  panic_releases_slot_but_escapes (MCHandler.mk 2 50) (fun _ => EnvState.mk false 1)
    tieHead 3 (PanicVal.errVal GoError.ctxCanceled) (GoError.poolErr 7) none
